import Mathlib

/-!
Shallow embedding of `src/components/global/dom.js` (ring-ui DOM utilities).

The module is a set of stateless wrappers over the host document/window plus
one bookkeeping class (`Listeners`).  The host environment is modelled
explicitly:

* the document tree is a partial parent function on node identifiers,
  together with the identifier of the document node itself and of the
  document's root element (`document.documentElement`);
* `Element.contains` is ancestor-chasing along parent links, bounded by an
  explicit fuel (the tree is finite, so every claim quantifies over the fuel);
* JavaScript object identity (needed for the freshness of rectangle stubs and
  for the identity of the closure handles stored by `Listeners`) is modelled
  with allocation counters;
* the platform listener table (`addEventListener` / `removeEventListener`)
  is a duplicate-free list of (element, event, handler, capture) tuples, with
  the native dedup-on-add semantics.
-/

/-! ## Document tree model -/

/-- The host document: the id of the document node itself, the id of
`document.documentElement`, and the parent link of every tree node
(`none` models a null `parentNode`). -/
structure Doc where
  docId : Nat
  rootId : Nat
  parent : Nat → Option Nat

/-- A JavaScript value handed to the DOM helpers: a DOM `Node` (identified by
its id; the document node is `node d.docId`), a `Range` (not a `Node`), or
some other value. -/
inductive DomValue where
  | node (id : Nat)
  | range (id : Nat)
  | other
deriving DecidableEq

/-- `inRootTree d fuel i` models `document.documentElement.contains(n)` for
the node with id `i`: true when following parent links from `i` (at most
`fuel` steps) reaches the root element, inclusively. -/
def inRootTree (d : Doc) : Nat → Nat → Bool
  | 0, i => i == d.rootId
  | fuel + 1, i =>
    i == d.rootId ||
      (match d.parent i with
       | none => false
       | some p => inRootTree d fuel p)

/-- `document.documentElement.contains(x)` where `x` may be null
(`contains(null)` is false). -/
def rootContains (d : Doc) (fuel : Nat) : Option Nat → Bool
  | none => false
  | some i => inRootTree d fuel i

/-- Embedding of `isMounted`:
`if (node === document) return true;
 return node instanceof Node && document.documentElement.contains(node.parentNode);` -/
def isMounted (d : Doc) (fuel : Nat) (node : DomValue) : Bool :=
  match node with
  | DomValue.node i =>
    if i == d.docId then true
    else rootContains d fuel (d.parent i)
  | DomValue.range _ => false
  | DomValue.other => false

/-- Modelled from the spec glossary: "a node that is the document itself or is
reachable from the document's root element via parent links" (reachability is
reflexive, so the root element itself qualifies). -/
def specMounted (d : Doc) (fuel : Nat) (node : DomValue) : Bool :=
  match node with
  | DomValue.node i => i == d.docId || inRootTree d fuel i
  | DomValue.range _ => false
  | DomValue.other => false

/-! ## Bounding rectangles and object freshness -/

/-- A rectangle value `{top, right, bottom, left, width, height}`. -/
structure Rect where
  top : Int
  right : Int
  bottom : Int
  left : Int
  width : Int
  height : Int
deriving DecidableEq

/-- The module-level `rectStub` constant. -/
def rectStub : Rect := { top := 0, right := 0, bottom := 0, left := 0, width := 0, height := 0 }

/-- A heap of rectangle objects: JavaScript object identity is an address,
allocation bumps `next`.  Both branches of `getRect` build a brand-new object
(`{top, right, ...}` literal resp. `Object.assign({}, rectStub)`), i.e. both
allocate. -/
structure RectHeap where
  next : Nat
  store : Nat → Option Rect

/-- Allocate a fresh rectangle object holding `r`; returns its address. -/
def allocRect (h : RectHeap) (r : Rect) : Nat × RectHeap :=
  (h.next,
   { next := h.next + 1,
     store := fun a => if a = h.next then some r else h.store a })

/-- `node instanceof Range`. -/
def isRange : DomValue → Bool
  | DomValue.range _ => true
  | _ => false

/-- The ambient host for `getRect`: the document, a fuel bound for
`contains`, and the platform's live `getBoundingClientRect` readings. -/
structure DomEnv where
  doc : Doc
  fuel : Nat
  gbcr : DomValue → Rect

/-- Embedding of `getRect`: for a `Range` or a mounted node, destructure the
live bounding rect and build a fresh object from it; otherwise return
`Object.assign({}, rectStub)`, a fresh copy of the stub. -/
def getRect (env : DomEnv) (h : RectHeap) (node : DomValue) : Nat × RectHeap :=
  if isRange node || isMounted env.doc env.fuel node then
    allocRect h (env.gbcr node)
  else
    allocRect h rectStub

/-! ## Pixel ratio -/

/-- The window as seen by `getPixelRatio`: `devicePixelRatio` is `some v`
when the property is present on the window and reports `v`, `none` when the
feature is absent. -/
structure PixelWindow where
  devicePixelRatio : Option ℚ
deriving DecidableEq

/-- Embedding of `getPixelRatio`:
`'devicePixelRatio' in window ? window.devicePixelRatio : 1`. -/
def getPixelRatio (w : PixelWindow) : ℚ :=
  match w.devicePixelRatio with
  | some v => v
  | none => 1

/-! ## Document scroll offsets -/

/-- Scroll state of an element (`scrollTop` / `scrollLeft`). -/
structure ScrollElem where
  scrollTop : Int
  scrollLeft : Int
deriving DecidableEq

/-- The document as seen by the scroll accessors: `documentElement` may be
absent (null), `body` is present. -/
structure ScrollHost where
  documentElement : Option ScrollElem
  body : ScrollElem
deriving DecidableEq

/-- Embedding of `getDocumentScrollTop`:
`(document.documentElement && document.documentElement.scrollTop) || document.body.scrollTop`.
A null `documentElement` is falsy, and a numeric `scrollTop` is falsy exactly
when it is `0`. -/
def getDocumentScrollTop (doc : ScrollHost) : Int :=
  match doc.documentElement with
  | none => doc.body.scrollTop
  | some e => if e.scrollTop ≠ 0 then e.scrollTop else doc.body.scrollTop

/-- Embedding of `getDocumentScrollLeft`, analogously. -/
def getDocumentScrollLeft (doc : ScrollHost) : Int :=
  match doc.documentElement with
  | none => doc.body.scrollLeft
  | some e => if e.scrollLeft ≠ 0 then e.scrollLeft else doc.body.scrollLeft

/-! ## Class-list helpers

Strings are modelled as lists of characters.  `classes.split(/\s+/g)` splits
on maximal whitespace runs, keeping possible empty tokens at the two ends;
the source immediately discards every empty token, and splitting on runs
followed by that filter yields the same token list as splitting at every
single whitespace character followed by the same filter, which is how
`splitWs` is written. -/

/-- Split a character list at every whitespace character (empty tokens are
kept, exactly as a splitting primitive produces them). -/
def splitWs : List Char → List (List Char)
  | [] => [[]]
  | c :: rest =>
    if c.isWhitespace then [] :: splitWs rest
    else
      match splitWs rest with
      | [] => [[c]]
      | t :: ts => (c :: t) :: ts

/-- `classes.split(/\s+/g).filter(className => !!className)`: the whitespace
split with empty tokens (falsy strings) discarded. -/
def tokensOf (classes : List Char) : List (List Char) :=
  (splitWs classes).filter (fun t => t ≠ [])

/-- The two class-list mutation verbs the helper is instantiated with. -/
inductive ClassVerb where
  | add
  | remove
deriving DecidableEq

/-- The sequence of individual `classList[method](className)` invocations the
helper performs: one call per surviving token, in order.  The `Option`
argument models the `classes = ''` default parameter (undefined becomes the
empty string). -/
def classCalls (method : ClassVerb) (classes : Option (List Char)) : List (ClassVerb × List Char) :=
  (tokensOf (classes.getD [])).map (fun t => (method, t))

/-- DOMTokenList semantics of a single-token `add`/`remove` call on a
class-list handle (a duplicate-free token list). -/
def classListApply (cl : List (List Char)) : ClassVerb × List Char → List (List Char)
  | (ClassVerb.add, t) => if t ∈ cl then cl else cl ++ [t]
  | (ClassVerb.remove, t) => cl.filter (fun x => x ≠ t)

/-- Embedding of `applyMethodToClasses`: perform each individual call on the
handle. -/
def applyMethodToClasses (method : ClassVerb) (classList : List (List Char))
    (classes : Option (List Char)) : List (List Char) :=
  (classCalls method classes).foldl classListApply classList

/-- `addClasses = applyMethodToClasses('add')`. -/
def addClasses : List (List Char) → Option (List Char) → List (List Char) :=
  applyMethodToClasses ClassVerb.add

/-- `removeClasses = applyMethodToClasses('remove')`. -/
def removeClasses : List (List Char) → Option (List Char) → List (List Char) :=
  applyMethodToClasses ClassVerb.remove

/-! ## Defensive preventDefault -/

/-- An event-like value: `hasPreventDefault` is the truthiness of the
`preventDefault` property (a plain object `{}` has `false`), `pdCalls` counts
how often the capability has been invoked. -/
structure SynthEvent where
  hasPreventDefault : Bool
  pdCalls : Nat
deriving DecidableEq

/-- Calling `e.preventDefault()` unconditionally: throws (`none`) when the
capability is absent, otherwise records the invocation. -/
def callPreventDefaultOn (e : SynthEvent) : Option SynthEvent :=
  if e.hasPreventDefault then some { e with pdCalls := e.pdCalls + 1 } else none

/-- Embedding of `preventDefault`:
`if (e.preventDefault) { e.preventDefault(); }` -/
def preventDefault (e : SynthEvent) : Option SynthEvent :=
  if e.hasPreventDefault then callPreventDefaultOn e else some e

/-! ## The Listeners registry

`Listeners` keeps a `Set` of zero-argument unsubscribe closures.  Each
closure produced by `add` is a distinct JavaScript object even when its
captured arguments coincide, so a closure is modelled as a `Handle`: a fresh
allocation id paired with the captured (element, event, handler, capture)
tuple.  `Set` membership and deletion go by that object identity.  The
platform's listener table is carried in the same state so that invoking a
closure (which calls `el.removeEventListener(...)`) has its effect; by
EventTarget semantics `addEventListener` ignores a duplicate
(element, event, handler, capture) registration, so the table never holds
duplicates and removing the matching entry is a filter. -/

/-- A platform event subscription: the captured arguments of one
`addEventListener` call.  Elements and handlers are identified by id. -/
structure Subscription where
  el : Nat
  event : String
  handler : Nat
  useCapture : Bool
deriving DecidableEq

/-- An unsubscribe closure (`dispatchFn`): its object identity `id` plus the
subscription tuple it captured. -/
structure Handle where
  id : Nat
  sub : Subscription
deriving DecidableEq

/-- The platform's `el.addEventListener(event, handler, useCapture)`: a
duplicate registration is ignored. -/
def addEventListener (subs : List Subscription) (s : Subscription) : List Subscription :=
  if s ∈ subs then subs else subs ++ [s]

/-- The platform's `el.removeEventListener(event, handler, useCapture)`:
drops the matching registration (absent entries are a no-op). -/
def removeEventListener (subs : List Subscription) (s : Subscription) : List Subscription :=
  subs.filter (fun x => x ≠ s)

/-- `Set.prototype.add`: appends unless the element is already present. -/
def setAdd (l : List Handle) (h : Handle) : List Handle :=
  if h ∈ l then l else l ++ [h]

/-- Combined state of one `Listeners` instance and the platform: the `_all`
set of stored closures, the allocation counter giving fresh closure
identities, and the platform listener table. -/
structure Listeners where
  _all : List Handle
  nextId : Nat
  platform : List Subscription
deriving DecidableEq

/-- A freshly constructed registry (`_all = new Set()`), over an empty
platform table. -/
def Listeners.init : Listeners :=
  { _all := [], nextId := 0, platform := [] }

/-- `add(el, event, handler, useCapture)`: registers on the platform, stores
a fresh `dispatchFn` closure in `_all`, and returns it. -/
def Listeners.add (st : Listeners) (el : Nat) (event : String) (handler : Nat)
    (useCapture : Bool) : Handle × Listeners :=
  let s : Subscription := { el := el, event := event, handler := handler, useCapture := useCapture }
  let dispatchFn : Handle := { id := st.nextId, sub := s }
  (dispatchFn,
   { _all := setAdd st._all dispatchFn,
     nextId := st.nextId + 1,
     platform := addEventListener st.platform s })

/-- Invoking a `dispatchFn` closure directly: it only calls
`el.removeEventListener(event, handler, useCapture)`; it does not touch the
`_all` set. -/
def invokeUnsub (st : Listeners) (fn : Handle) : Listeners :=
  { st with platform := removeEventListener st.platform fn.sub }

/-- `remove(fn)`: `fn(); this._all.delete(fn);`. -/
def Listeners.remove (st : Listeners) (fn : Handle) : Listeners :=
  let st1 := invokeUnsub st fn
  { st1 with _all := st1._all.filter (fun h => h ≠ fn) }

/-- `removeAll()`: `this._all.forEach(fn => this.remove(fn));` — each
iterated closure is removed; since `remove` deletes exactly the closure just
visited, iterating the snapshot of `_all` coincides with the live
iteration. -/
def Listeners.removeAll (st : Listeners) : Listeners :=
  st._all.foldl (fun acc fn => Listeners.remove acc fn) st

/-- Perform a sequence of `add` calls, one per subscription tuple. -/
def Listeners.addAll (st : Listeners) : List Subscription → Listeners
  | [] => st
  | s :: rest => Listeners.addAll (Listeners.add st s.el s.event s.handler s.useCapture).2 rest

/-- Whether a platform dispatch of `event` on element `el` would invoke the
handler `handler`: true exactly when some active subscription matches
(capture and bubble listeners both fire on the target). -/
def fires (subs : List Subscription) (el : Nat) (event : String) (handler : Nat) : Bool :=
  subs.any (fun s => decide (s.el = el ∧ s.event = event ∧ s.handler = handler))

/-! ## Concrete host instances used by witnesses and counterexamples -/

/-- A two-node document: node `0` is the document node, node `1` is the root
element (`documentElement`), whose parent is the document node — exactly the
shape every real document has. -/
def c2Doc : Doc :=
  { docId := 0, rootId := 1, parent := fun i => if i == 1 then some 0 else none }

/-- A document for the `getRect` witness in which node `7` is detached. -/
def c3Doc : Doc := { docId := 0, rootId := 1, parent := fun _ => none }

/-- A host for the `getRect` witness; the live bounding-rect readings are
irrelevant on the detached path. -/
def c3Env : DomEnv := { doc := c3Doc, fuel := 5, gbcr := fun _ => rectStub }

/-- An empty rectangle heap. -/
def c3Heap : RectHeap := { next := 0, store := fun _ => none }

/-- One concrete subscription tuple, registered twice in the C1
counterexample. -/
def c1Pair : Subscription := { el := 0, event := "click", handler := 0, useCapture := false }

/-! ## Claim C2 — isMounted -/

/-- C2 (counterexample): the claim equates `isMounted n` with "`n` is the
document or `n` is reachable from the document's root element via parent
links".  The two sides disagree at `n` = the root element itself: it is
trivially reachable from itself, yet the code checks
`document.documentElement.contains(n.parentNode)` and the root element's
parent is the document, which is not inside the root element, so `isMounted`
returns `false`. -/
theorem c2_counterexample :
    ¬ (isMounted c2Doc 5 (DomValue.node 1) = true ↔
        specMounted c2Doc 5 (DomValue.node 1) = true) := by
  decide

/-- C2 (amended): `isMounted d fuel n` is true exactly when `n` is the
document itself, or `n` is a tree node other than the document that has a
parent whose ancestor-or-self chain reaches the document's root element; in
particular `isMounted document` is always true.  (The root element itself
yields `false`: its parent is the document, which lies outside the root
element.) -/
theorem c2_isMounted_characterization (d : Doc) (fuel : Nat) (v : DomValue) :
    (isMounted d fuel v = true ↔
      (v = DomValue.node d.docId ∨
        ∃ i p, v = DomValue.node i ∧ i ≠ d.docId ∧ d.parent i = some p ∧
          inRootTree d fuel p = true)) ∧
    isMounted d fuel (DomValue.node d.docId) = true := by
  constructor
  · cases v with
    | node i =>
      by_cases hdoc : i = d.docId
      · subst hdoc
        simp [isMounted]
      · have hbeq : (i == d.docId) = false := by
          simp [hdoc]
        cases hp : d.parent i with
        | none =>
          simp [isMounted, hbeq, hp, rootContains, hdoc]
        | some p =>
          simp [isMounted, hbeq, hp, rootContains, hdoc]
    | range j => simp [isMounted]
    | other => simp [isMounted]
  · simp [isMounted]

/-! ## Claim C3 — getRect freshness on detached nodes -/

/-- C3: for a detached (unmounted, non-Range) node, `getRect` returns the
zeroed stub rectangle, and two successive calls return two distinct objects
(different heap addresses), each holding exactly the stub contents. -/
theorem c3_getRect_detached_fresh_stub (env : DomEnv) (heap : RectHeap) (v : DomValue)
    (hr : isRange v = false) (hm : isMounted env.doc env.fuel v = false) :
    (getRect env heap v).1 ≠ (getRect env (getRect env heap v).2 v).1 ∧
    (getRect env (getRect env heap v).2 v).2.store (getRect env heap v).1 = some rectStub ∧
    (getRect env (getRect env heap v).2 v).2.store (getRect env (getRect env heap v).2 v).1 =
      some rectStub := by
  have hcond : (isRange v || isMounted env.doc env.fuel v) = false := by
    rw [hr, hm]
    rfl
  simp only [getRect, hcond, Bool.false_eq_true, if_false, allocRect]
  refine ⟨by omega, ?_, ?_⟩
  · have h1 : ¬ heap.next = heap.next + 1 := by omega
    simp [h1]
  · simp

/-- C3 (witness): the theorem applied to the concrete detached node `7` of
`c3Doc`. -/
theorem c3_getRect_witness :
    isRange (DomValue.node 7) = false ∧
    isMounted c3Env.doc c3Env.fuel (DomValue.node 7) = false ∧
    ((getRect c3Env c3Heap (DomValue.node 7)).1 ≠
      (getRect c3Env (getRect c3Env c3Heap (DomValue.node 7)).2 (DomValue.node 7)).1 ∧
    (getRect c3Env (getRect c3Env c3Heap (DomValue.node 7)).2 (DomValue.node 7)).2.store
        (getRect c3Env c3Heap (DomValue.node 7)).1 = some rectStub ∧
    (getRect c3Env (getRect c3Env c3Heap (DomValue.node 7)).2 (DomValue.node 7)).2.store
        (getRect c3Env (getRect c3Env c3Heap (DomValue.node 7)).2 (DomValue.node 7)).1 =
      some rectStub) :=
  ⟨rfl, rfl, c3_getRect_detached_fresh_stub c3Env c3Heap (DomValue.node 7) rfl rfl⟩

/-! ## Claim C6 — document scroll accessors -/

/-- C6: `getDocumentScrollTop` / `getDocumentScrollLeft` return the root
element's scroll offset when that value is truthy (non-zero), and fall back
to the body's value when the root element is absent or its value is falsy. -/
theorem c6_scroll_accessors_fallback (host : ScrollHost) (e : ScrollElem) :
    (host.documentElement = none → getDocumentScrollTop host = host.body.scrollTop) ∧
    (host.documentElement = some e → e.scrollTop ≠ 0 → getDocumentScrollTop host = e.scrollTop) ∧
    (host.documentElement = some e → e.scrollTop = 0 →
      getDocumentScrollTop host = host.body.scrollTop) ∧
    (host.documentElement = none → getDocumentScrollLeft host = host.body.scrollLeft) ∧
    (host.documentElement = some e → e.scrollLeft ≠ 0 →
      getDocumentScrollLeft host = e.scrollLeft) ∧
    (host.documentElement = some e → e.scrollLeft = 0 →
      getDocumentScrollLeft host = host.body.scrollLeft) := by
  refine ⟨?_, ?_, ?_, ?_, ?_, ?_⟩
  · intro h
    simp [getDocumentScrollTop, h]
  · intro h hne
    simp [getDocumentScrollTop, h, hne]
  · intro h h0
    simp [getDocumentScrollTop, h, h0]
  · intro h
    simp [getDocumentScrollLeft, h]
  · intro h hne
    simp [getDocumentScrollLeft, h, hne]
  · intro h h0
    simp [getDocumentScrollLeft, h, h0]

/-- C6 (witness): a quirks-free host with a truthy root scroll value, and a
host whose root value is falsy for the left accessor. -/
theorem c6_scroll_witness :
    getDocumentScrollTop
      { documentElement := some { scrollTop := 5, scrollLeft := 0 },
        body := { scrollTop := 9, scrollLeft := 11 } } = 5 ∧
    getDocumentScrollLeft
      { documentElement := some { scrollTop := 5, scrollLeft := 0 },
        body := { scrollTop := 9, scrollLeft := 11 } } = 11 :=
  ⟨(c6_scroll_accessors_fallback
      { documentElement := some { scrollTop := 5, scrollLeft := 0 },
        body := { scrollTop := 9, scrollLeft := 11 } }
      { scrollTop := 5, scrollLeft := 0 }).2.1 rfl (by decide),
   (c6_scroll_accessors_fallback
      { documentElement := some { scrollTop := 5, scrollLeft := 0 },
        body := { scrollTop := 9, scrollLeft := 11 } }
      { scrollTop := 5, scrollLeft := 0 }).2.2.2.2.2 rfl rfl⟩

/-! ## Claim C7 — getPixelRatio -/

/-- C7: `getPixelRatio` returns exactly `1` when the `devicePixelRatio`
feature is absent from the host window, and the host's reported value
otherwise. -/
theorem c7_getPixelRatio_feature_detect (w : PixelWindow) :
    (w.devicePixelRatio = none → getPixelRatio w = 1) ∧
    (∀ v, w.devicePixelRatio = some v → getPixelRatio w = v) := by
  constructor
  · intro h
    simp [getPixelRatio, h]
  · intro v h
    simp [getPixelRatio, h]

/-- C7 (witness): a feature-less window reports `1`; a window reporting `2`
is passed through. -/
theorem c7_getPixelRatio_witness :
    getPixelRatio { devicePixelRatio := none } = 1 ∧
    getPixelRatio { devicePixelRatio := some 2 } = 2 :=
  ⟨(c7_getPixelRatio_feature_detect { devicePixelRatio := none }).1 rfl,
   (c7_getPixelRatio_feature_detect { devicePixelRatio := some 2 }).2 2 rfl⟩

/-! ## Claim C8 — preventDefault -/

/-- C8: `preventDefault` never throws, invokes the event's prevent-default
capability exactly when it is present, and is a no-op on a plain object
without the capability. -/
theorem c8_preventDefault_guarded (e : SynthEvent) :
    (preventDefault e).isSome = true ∧
    preventDefault e =
      some { hasPreventDefault := e.hasPreventDefault,
             pdCalls := if e.hasPreventDefault then e.pdCalls + 1 else e.pdCalls } ∧
    preventDefault { hasPreventDefault := false, pdCalls := 0 } =
      some { hasPreventDefault := false, pdCalls := 0 } := by
  refine ⟨?_, ?_, rfl⟩
  · cases e with
    | mk hasPd n => cases hasPd <;> simp [preventDefault, callPreventDefaultOn]
  · cases e with
    | mk hasPd n => cases hasPd <;> simp [preventDefault, callPreventDefaultOn]

/-! ## Claim C5 — class-list helpers -/

/-- `splitWs` always yields at least one token. -/
theorem splitWs_ne_nil (l : List Char) : splitWs l ≠ [] := by
  cases l with
  | nil => simp [splitWs]
  | cons c rest =>
    rw [splitWs]
    by_cases hw : c.isWhitespace
    · rw [if_pos hw]
      simp
    · rw [if_neg hw]
      cases h : splitWs rest <;> simp

/-- No whitespace character ever ends up inside a `splitWs` token. -/
theorem splitWs_token_chars (l : List Char) :
    ∀ tk ∈ splitWs l, ∀ c ∈ tk, c.isWhitespace = false := by
  induction l with
  | nil =>
    intro tk htk c hc
    simp [splitWs] at htk
    subst htk
    simp at hc
  | cons a rest ih =>
    intro tk htk c hc
    rw [splitWs] at htk
    by_cases hw : a.isWhitespace
    · rw [if_pos hw] at htk
      rcases List.mem_cons.1 htk with h1 | h1
      · subst h1
        simp at hc
      · exact ih tk h1 c hc
    · rw [if_neg hw] at htk
      cases hsp : splitWs rest with
      | nil => exact absurd hsp (splitWs_ne_nil rest)
      | cons t ts =>
        rw [hsp] at htk
        rcases List.mem_cons.1 htk with h1 | h1
        · subst h1
          rcases List.mem_cons.1 hc with h2 | h2
          · subst h2
            cases hval : c.isWhitespace
            · rfl
            · exact absurd hval hw
          · exact ih t (hsp ▸ List.mem_cons_self t ts) c h2
        · exact ih tk (hsp ▸ List.mem_cons_of_mem t h1) c hc

/-- On an all-whitespace input every `splitWs` token is empty. -/
theorem splitWs_all_ws (l : List Char) (h : ∀ c ∈ l, c.isWhitespace = true) :
    ∀ tk ∈ splitWs l, tk = [] := by
  induction l with
  | nil =>
    intro tk htk
    simp [splitWs] at htk
    exact htk
  | cons a rest ih =>
    intro tk htk
    have hw : a.isWhitespace = true := h a (List.mem_cons_self a rest)
    rw [splitWs, if_pos hw] at htk
    rcases List.mem_cons.1 htk with h1 | h1
    · exact h1
    · exact ih (fun c hc => h c (List.mem_cons_of_mem a hc)) tk h1

/-- An all-whitespace class spec yields no tokens at all. -/
theorem tokensOf_all_ws (l : List Char) (h : ∀ c ∈ l, c.isWhitespace = true) :
    tokensOf l = [] := by
  rw [tokensOf, List.filter_eq_nil_iff]
  intro tk htk
  simp [splitWs_all_ws l h tk htk]

/-- C5: the class helpers split the spec on whitespace runs, discard empty
tokens, and issue one single-token call per surviving token (each issued
token is nonempty and whitespace-free); an undefined, empty, or
whitespace-only spec is a no-op; and the spec `"a  b"` with doubled
whitespace issues exactly the calls for `a` and `b`. -/
theorem c5_applyMethodToClasses_tokens (m : ClassVerb) (cl : List (List Char))
    (t : Option (List Char)) (s : List Char)
    (hws : ∀ c ∈ s, c.isWhitespace = true) :
    (∀ x ∈ classCalls m t, x.1 = m ∧ x.2 ≠ [] ∧ ∀ c ∈ x.2, c.isWhitespace = false) ∧
    applyMethodToClasses m cl none = cl ∧
    applyMethodToClasses m cl (some []) = cl ∧
    applyMethodToClasses m cl (some s) = cl ∧
    classCalls ClassVerb.add (some ['a', ' ', ' ', 'b']) =
      [(ClassVerb.add, ['a']), (ClassVerb.add, ['b'])] := by
  refine ⟨?_, rfl, rfl, ?_, by decide⟩
  · intro x hx
    rcases List.mem_map.1 hx with ⟨tk, htk, hxeq⟩
    rcases List.mem_filter.1 htk with ⟨hmem, hne⟩
    subst hxeq
    refine ⟨rfl, by simpa using hne, ?_⟩
    exact splitWs_token_chars _ tk hmem
  · rw [applyMethodToClasses, classCalls]
    simp [tokensOf_all_ws s hws]

/-- C5 (witness): the theorem at a concrete verb, handle, spec and
whitespace-only string. -/
theorem c5_applyMethodToClasses_witness :
    (∀ c ∈ [' ', ' '], c.isWhitespace = true) ∧
    ((∀ x ∈ classCalls ClassVerb.add (some ['x']),
        x.1 = ClassVerb.add ∧ x.2 ≠ [] ∧ ∀ c ∈ x.2, c.isWhitespace = false) ∧
    applyMethodToClasses ClassVerb.add [['q']] none = [['q']] ∧
    applyMethodToClasses ClassVerb.add [['q']] (some []) = [['q']] ∧
    applyMethodToClasses ClassVerb.add [['q']] (some [' ', ' ']) = [['q']] ∧
    classCalls ClassVerb.add (some ['a', ' ', ' ', 'b']) =
      [(ClassVerb.add, ['a']), (ClassVerb.add, ['b'])]) :=
  ⟨by decide,
   c5_applyMethodToClasses_tokens ClassVerb.add [['q']] (some ['x']) [' ', ' '] (by decide)⟩

/-! ## Listeners: unfolding equations and bookkeeping lemmas -/

/-- `Listeners.add` written out as a record. -/
theorem Listeners.add_eq (st : Listeners) (el : Nat) (event : String) (handler : Nat)
    (cap : Bool) :
    Listeners.add st el event handler cap =
      ({ id := st.nextId,
         sub := { el := el, event := event, handler := handler, useCapture := cap } },
       { _all := setAdd st._all
           { id := st.nextId,
             sub := { el := el, event := event, handler := handler, useCapture := cap } },
         nextId := st.nextId + 1,
         platform := addEventListener st.platform
           { el := el, event := event, handler := handler, useCapture := cap } }) := rfl

/-- `Listeners.remove` written out as a record. -/
theorem Listeners.remove_eq (st : Listeners) (fn : Handle) :
    Listeners.remove st fn =
      { _all := st._all.filter (fun h => h ≠ fn),
        nextId := st.nextId,
        platform := removeEventListener st.platform fn.sub } := rfl

/-- A `Set.add` contains its argument. -/
theorem mem_setAdd_self (l : List Handle) (h : Handle) : h ∈ setAdd l h := by
  rw [setAdd]
  by_cases hm : h ∈ l
  · rw [if_pos hm]
    exact hm
  · rw [if_neg hm]
    simp

/-- A `Set.add` keeps every previous member. -/
theorem mem_setAdd_of_mem (l : List Handle) (h x : Handle) (hx : x ∈ l) : x ∈ setAdd l h := by
  rw [setAdd]
  by_cases hm : h ∈ l
  · rw [if_pos hm]
    exact hx
  · rw [if_neg hm]
    exact List.mem_append_left _ hx

/-- After `addEventListener` the registered tuple is active. -/
theorem mem_addEventListener_self (subs : List Subscription) (s : Subscription) :
    s ∈ addEventListener subs s := by
  rw [addEventListener]
  by_cases hm : s ∈ subs
  · rw [if_pos hm]
    exact hm
  · rw [if_neg hm]
    simp

/-- Filtering away an element that does not occur is the identity. -/
theorem filter_ne_eq_self {α : Type} [DecidableEq α] (l : List α) (a : α)
    (hne : ∀ x ∈ l, x ≠ a) : l.filter (fun x => x ≠ a) = l :=
  List.filter_eq_self.2 (fun x hx => decide_eq_true (hne x hx))

/-- Removing a freshly appended (previously inactive) subscription restores
the original table. -/
theorem removeEventListener_append_self (subs : List Subscription) (s : Subscription)
    (hne : s ∉ subs) : removeEventListener (subs ++ [s]) s = subs := by
  rw [removeEventListener, List.filter_append,
    filter_ne_eq_self subs s (fun x hx heq => hne (heq ▸ hx))]
  simp

/-- No handler fires on a table none of whose entries match it. -/
theorem fires_eq_false_of_not_handled (subs : List Subscription) (el : Nat) (event : String)
    (handler : Nat)
    (h : ∀ s ∈ subs, ¬(s.el = el ∧ s.event = event ∧ s.handler = handler)) :
    fires subs el event handler = false := by
  rw [fires, List.any_eq_false]
  intro x hx
  simpa using h x hx

/-- Folding `remove` over a list covering the whole `_all` set empties it. -/
theorem foldl_remove_all_eq_nil (L : List Handle) :
    ∀ st : Listeners, (∀ x ∈ st._all, x ∈ L) →
      (L.foldl (fun acc fn => Listeners.remove acc fn) st)._all = [] := by
  induction L with
  | nil =>
    intro st h
    rw [List.foldl_nil]
    cases hst : st._all with
    | nil => rfl
    | cons a as => exact absurd (h a (hst ▸ List.mem_cons_self a as)) (by simp)
  | cons fn rest ih =>
    intro st h
    rw [List.foldl_cons]
    apply ih
    intro x hx
    rw [Listeners.remove_eq] at hx
    rcases List.mem_filter.1 hx with ⟨hx1, hx2⟩
    have hxne : x ≠ fn := by simpa using hx2
    rcases List.mem_cons.1 (h x hx1) with h1 | h1
    · exact absurd h1 hxne
    · exact h1

/-- Folding `remove` over a list of handles whose subscriptions cover the
platform table empties the table. -/
theorem foldl_remove_platform_eq_nil (L : List Handle) :
    ∀ st : Listeners, (∀ s ∈ st.platform, ∃ h ∈ L, h.sub = s) →
      (L.foldl (fun acc fn => Listeners.remove acc fn) st).platform = [] := by
  induction L with
  | nil =>
    intro st h
    rw [List.foldl_nil]
    cases hst : st.platform with
    | nil => rfl
    | cons a as =>
      rcases h a (hst ▸ List.mem_cons_self a as) with ⟨h2, hmem, _⟩
      simp at hmem
  | cons fn rest ih =>
    intro st h
    rw [List.foldl_cons]
    apply ih
    intro s hs
    rw [Listeners.remove_eq] at hs
    rw [removeEventListener] at hs
    rcases List.mem_filter.1 hs with ⟨hs1, hs2⟩
    have hneq : s ≠ fn.sub := by simpa using hs2
    rcases h s hs1 with ⟨h2, hmem, hsub⟩
    rcases List.mem_cons.1 hmem with h1 | h1
    · exact absurd (h1 ▸ hsub).symm hneq
    · exact ⟨h2, h1, hsub⟩

/-- The registry-owns-the-platform invariant: every active platform
subscription is the captured tuple of some stored closure. -/
def PlatformCovered (st : Listeners) : Prop :=
  ∀ s ∈ st.platform, ∃ h ∈ st._all, h.sub = s

/-- `add` preserves `PlatformCovered`. -/
theorem add_preserves_covered (st : Listeners) (el : Nat) (event : String) (handler : Nat)
    (cap : Bool) (hc : PlatformCovered st) :
    PlatformCovered (Listeners.add st el event handler cap).2 := by
  intro s hs
  rw [Listeners.add_eq] at hs ⊢
  dsimp only at hs ⊢
  rw [addEventListener] at hs
  by_cases hm : ({ el := el, event := event, handler := handler, useCapture := cap } :
      Subscription) ∈ st.platform
  · rw [if_pos hm] at hs
    rcases hc s hs with ⟨h2, hmem, hsub⟩
    exact ⟨h2, mem_setAdd_of_mem _ _ _ hmem, hsub⟩
  · rw [if_neg hm] at hs
    rcases List.mem_append.1 hs with h1 | h1
    · rcases hc s h1 with ⟨h2, hmem, hsub⟩
      exact ⟨h2, mem_setAdd_of_mem _ _ _ hmem, hsub⟩
    · have heq : s = { el := el, event := event, handler := handler, useCapture := cap } := by
        simpa using h1
      exact ⟨{ id := st.nextId,
               sub := { el := el, event := event, handler := handler, useCapture := cap } },
             mem_setAdd_self _ _, heq ▸ rfl⟩

/-- `addAll` preserves `PlatformCovered`. -/
theorem addAll_covered (specs : List Subscription) :
    ∀ st : Listeners, PlatformCovered st → PlatformCovered (Listeners.addAll st specs) := by
  induction specs with
  | nil =>
    intro st h
    exact h
  | cons s rest ih =>
    intro st h
    rw [Listeners.addAll]
    exact ih _ (add_preserves_covered st s.el s.event s.handler s.useCapture h)

/-! ## Claim C1 — the registry invariant -/

/-- C1 (counterexample): the claimed invariant fails in a reachable state.
Registering the identical (element, event, handler, capture) tuple twice
stores two unsubscribe actions while the platform (which dedupes) keeps a
single active subscription, so the stored actions do not correspond
one-to-one to active subscriptions; and invoking a returned unsubscribe
action directly removes only the platform subscription while its entry stays
in the collection — a stale entry. -/
theorem c1_counterexample :
    (Listeners.addAll Listeners.init [c1Pair, c1Pair])._all.length = 2 ∧
    (Listeners.addAll Listeners.init [c1Pair, c1Pair]).platform.length = 1 ∧
    (Listeners.add Listeners.init 0 "click" 0 false).1 ∈
      (invokeUnsub (Listeners.add Listeners.init 0 "click" 0 false).2
        (Listeners.add Listeners.init 0 "click" 0 false).1)._all ∧
    (Listeners.add Listeners.init 0 "click" 0 false).1.sub ∉
      (invokeUnsub (Listeners.add Listeners.init 0 "click" 0 false).2
        (Listeners.add Listeners.init 0 "click" 0 false).1).platform := by
  decide

/-- C1 (amended): removal through the registry is never stale — after
`registry.remove(fn)` the action `fn` is no longer tracked and its captured
subscription is no longer active.  (Invoking `fn` directly bypasses the
bookkeeping, and duplicate registrations make several stored actions share
one platform subscription.) -/
theorem c1_remove_deletes_subscription_and_entry (st : Listeners) (fn : Handle) :
    fn ∉ (Listeners.remove st fn)._all ∧ fn.sub ∉ (Listeners.remove st fn).platform := by
  constructor
  · intro hmem
    rw [Listeners.remove_eq] at hmem
    rcases List.mem_filter.1 hmem with ⟨_, hcontra⟩
    simp at hcontra
  · intro hmem
    rw [Listeners.remove_eq] at hmem
    rw [removeEventListener] at hmem
    rcases List.mem_filter.1 hmem with ⟨_, hcontra⟩
    simp at hcontra

/-! ## Claim C4 — remove and removeAll detach handlers -/

/-- C4 (counterexample): the add-then-remove half of the claim fails in a
state reachable purely through the registry's API.  After
`add(0, "click", 7, true)` then `add(0, "click", 7, false)` then `remove`
of the second returned handle, the removal detaches only the
capture-`false` subscription; the earlier capture-`true` registration of
the same handler stays active, so a subsequent `click` dispatch on element
`0` still invokes handler `7` — even though the tracked count does decrease
by one. -/
theorem c4_counterexample :
    fires (Listeners.remove
        (Listeners.add (Listeners.add Listeners.init 0 "click" 7 true).2 0 "click" 7 false).2
        (Listeners.add (Listeners.add Listeners.init 0 "click" 7 true).2
          0 "click" 7 false).1).platform 0 "click" 7 = true ∧
    (Listeners.remove
        (Listeners.add (Listeners.add Listeners.init 0 "click" 7 true).2 0 "click" 7 false).2
        (Listeners.add (Listeners.add Listeners.init 0 "click" 7 true).2
          0 "click" 7 false).1)._all.length + 1 =
      (Listeners.add (Listeners.add Listeners.init 0 "click" 7 true).2
        0 "click" 7 false).2._all.length := by
  decide

/-- C4 (amended): from a well-formed registry state in which `handler` is
not already registered for `event` on `el`, an `add` followed by `remove`
of the returned handle detaches the handler (a subsequent dispatch does not
invoke it) and shrinks the tracked set by one — without that side condition
a pre-existing registration of the same handler (e.g. under a different
capture flag) survives the removal and the handler still fires; and from a
fresh registry, any sequence of `add` calls followed by `removeAll` leaves
the tracked count at `0` with no active platform subscription, so none of
the handlers fire on a subsequent dispatch. -/
theorem c4_remove_and_removeAll_detach (st : Listeners) (el : Nat) (event : String)
    (handler : Nat) (cap : Bool) (specs : List Subscription)
    (hWF : ∀ x ∈ st._all, x.id < st.nextId)
    (hNew : ∀ s ∈ st.platform, ¬(s.el = el ∧ s.event = event ∧ s.handler = handler)) :
    fires (Listeners.remove (Listeners.add st el event handler cap).2
        (Listeners.add st el event handler cap).1).platform el event handler = false ∧
    (Listeners.remove (Listeners.add st el event handler cap).2
        (Listeners.add st el event handler cap).1)._all.length + 1 =
      (Listeners.add st el event handler cap).2._all.length ∧
    (Listeners.removeAll (Listeners.addAll Listeners.init specs))._all = [] ∧
    (Listeners.removeAll (Listeners.addAll Listeners.init specs)).platform = [] ∧
    ∀ a b c, fires (Listeners.removeAll (Listeners.addAll Listeners.init specs)).platform
      a b c = false := by
  have hAllNil : (Listeners.removeAll (Listeners.addAll Listeners.init specs))._all = [] := by
    rw [Listeners.removeAll]
    exact foldl_remove_all_eq_nil _ _ (fun x hx => hx)
  have hCov : PlatformCovered (Listeners.addAll Listeners.init specs) :=
    addAll_covered specs Listeners.init (fun s hs => by simp [Listeners.init] at hs)
  have hPlatNil : (Listeners.removeAll (Listeners.addAll Listeners.init specs)).platform = [] := by
    rw [Listeners.removeAll]
    exact foldl_remove_platform_eq_nil _ _ hCov
  have hs0ne : ∀ x ∈ st.platform,
      x ≠ ({ el := el, event := event, handler := handler, useCapture := cap } :
        Subscription) := by
    intro x hx heq
    exact hNew x hx (by rw [heq]; exact ⟨rfl, rfl, rfl⟩)
  have hs0notin : ({ el := el, event := event, handler := handler, useCapture := cap } :
      Subscription) ∉ st.platform := fun hm => hs0ne _ hm rfl
  have hh0ne : ∀ x ∈ st._all,
      x ≠ ({ id := st.nextId,
             sub := { el := el, event := event, handler := handler, useCapture := cap } } :
        Handle) := by
    intro x hx heq
    have hid := hWF x hx
    rw [heq] at hid
    exact absurd hid (lt_irrefl st.nextId)
  have hh0notin : ({ id := st.nextId,
                     sub := { el := el, event := event, handler := handler,
                              useCapture := cap } } : Handle) ∉ st._all :=
    fun hm => hh0ne _ hm rfl
  refine ⟨?_, ?_, hAllNil, hPlatNil, ?_⟩
  · rw [Listeners.add_eq, Listeners.remove_eq]
    dsimp only
    rw [addEventListener, if_neg hs0notin, removeEventListener_append_self _ _ hs0notin]
    exact fires_eq_false_of_not_handled _ _ _ _ hNew
  · rw [Listeners.add_eq, Listeners.remove_eq]
    dsimp only
    rw [setAdd, if_neg hh0notin, List.filter_append, filter_ne_eq_self _ _ hh0ne]
    simp
  · intro a b c
    rw [hPlatNil]
    rfl

/-- C4 (witness): the theorem at a fresh registry, the subscription
`(0, "click", 0, false)`, and a two-element spec list. -/
theorem c4_remove_and_removeAll_witness :
    (∀ x ∈ Listeners.init._all, x.id < Listeners.init.nextId) ∧
    (∀ s ∈ Listeners.init.platform, ¬(s.el = 0 ∧ s.event = "click" ∧ s.handler = 0)) ∧
    (fires (Listeners.remove (Listeners.add Listeners.init 0 "click" 0 false).2
        (Listeners.add Listeners.init 0 "click" 0 false).1).platform 0 "click" 0 = false ∧
    (Listeners.remove (Listeners.add Listeners.init 0 "click" 0 false).2
        (Listeners.add Listeners.init 0 "click" 0 false).1)._all.length + 1 =
      (Listeners.add Listeners.init 0 "click" 0 false).2._all.length ∧
    (Listeners.removeAll (Listeners.addAll Listeners.init
        [c1Pair, { el := 1, event := "keydown", handler := 2, useCapture := true }]))._all
      = [] ∧
    (Listeners.removeAll (Listeners.addAll Listeners.init
        [c1Pair, { el := 1, event := "keydown", handler := 2, useCapture := true }])).platform
      = [] ∧
    ∀ a b c, fires (Listeners.removeAll (Listeners.addAll Listeners.init
        [c1Pair, { el := 1, event := "keydown", handler := 2, useCapture := true }])).platform
      a b c = false) :=
  ⟨by decide, by decide,
   c4_remove_and_removeAll_detach Listeners.init 0 "click" 0 false
     [c1Pair, { el := 1, event := "keydown", handler := 2, useCapture := true }]
     (by decide) (by decide)⟩

/-! ## Claim C9 — duplicate registration -/

/-- C9: adding the identical (element, event, handler, capture) arguments
twice returns two distinct unsubscribe handles and grows the tracked set by
two entries, while the second `add` leaves the platform table unchanged (the
native mechanism ignores the duplicate registration). -/
theorem c9_duplicate_add_two_handles (st : Listeners) (el : Nat) (event : String)
    (handler : Nat) (cap : Bool)
    (hWF : ∀ x ∈ st._all, x.id < st.nextId) :
    (Listeners.add st el event handler cap).1 ≠
      (Listeners.add (Listeners.add st el event handler cap).2 el event handler cap).1 ∧
    (Listeners.add (Listeners.add st el event handler cap).2 el event handler cap).2._all.length
      = st._all.length + 2 ∧
    (Listeners.add (Listeners.add st el event handler cap).2 el event handler cap).2.platform =
      (Listeners.add st el event handler cap).2.platform := by
  have hh0notin : ({ id := st.nextId,
                     sub := { el := el, event := event, handler := handler,
                              useCapture := cap } } : Handle) ∉ st._all := by
    intro hm
    have hid := hWF _ hm
    exact absurd hid (lt_irrefl st.nextId)
  have hh1notin : ({ id := st.nextId + 1,
                     sub := { el := el, event := event, handler := handler,
                              useCapture := cap } } : Handle) ∉
      setAdd st._all
        { id := st.nextId,
          sub := { el := el, event := event, handler := handler, useCapture := cap } } := by
    rw [setAdd, if_neg hh0notin]
    intro hm
    rcases List.mem_append.1 hm with h1 | h1
    · have hid := hWF _ h1
      simp at hid
    · have := List.mem_singleton.1 h1
      have hid := congrArg Handle.id this
      simp at hid
  refine ⟨?_, ?_, ?_⟩
  · rw [Listeners.add_eq, Listeners.add_eq]
    dsimp only
    intro heq
    have hid := congrArg Handle.id heq
    simp at hid
  · rw [Listeners.add_eq, Listeners.add_eq]
    dsimp only
    rw [setAdd, if_neg hh1notin, setAdd, if_neg hh0notin]
    simp
  · rw [Listeners.add_eq, Listeners.add_eq]
    dsimp only
    rw [addEventListener]
    rw [if_pos (mem_addEventListener_self st.platform _)]

/-- C9 (witness): the theorem at a fresh registry. -/
theorem c9_duplicate_add_witness :
    (∀ x ∈ Listeners.init._all, x.id < Listeners.init.nextId) ∧
    ((Listeners.add Listeners.init 0 "click" 0 false).1 ≠
      (Listeners.add (Listeners.add Listeners.init 0 "click" 0 false).2 0 "click" 0 false).1 ∧
    (Listeners.add (Listeners.add Listeners.init 0 "click" 0 false).2
        0 "click" 0 false).2._all.length = Listeners.init._all.length + 2 ∧
    (Listeners.add (Listeners.add Listeners.init 0 "click" 0 false).2
        0 "click" 0 false).2.platform =
      (Listeners.add Listeners.init 0 "click" 0 false).2.platform) :=
  ⟨by decide, c9_duplicate_add_two_handles Listeners.init 0 "click" 0 false (by decide)⟩

/-! ## Claim C10 — remove is idempotent on the tracked set -/

/-- C10: removing an already-removed handle a second time leaves the tracked
set unchanged (deleting an absent `Set` entry is a no-op), while the
handle's detach action is nevertheless invoked again (a second
`removeEventListener` pass over the current table). -/
theorem c10_remove_idempotent_on_tracked (st : Listeners) (fn : Handle) :
    (Listeners.remove (Listeners.remove st fn) fn)._all = (Listeners.remove st fn)._all ∧
    (Listeners.remove (Listeners.remove st fn) fn).platform =
      removeEventListener (Listeners.remove st fn).platform fn.sub := by
  constructor
  · simp only [Listeners.remove_eq]
    rw [List.filter_filter]
    simp
  · rfl
